import Mathlib

/- Verification of the HouseSeats bot scrape-diff-notify pipeline,
   shallowly embedded from src/scraper.py. -/

namespace HouseSeats

/-- Descriptive fields of one scraped show, as assembled in
src/scraper.py lines 243-247: a dict value with name, url and optional image url. -/
structure ShowInfo where
  name : String
  url : String
  image_url : Option String
deriving DecidableEq

/-- A python dict keyed by show id, in insertion order: unique keys where stated. -/
abbrev ShowsDict := List (String × ShowInfo)

/-- A row of the `shows` table (current snapshot), schema at src/scraper.py lines 45-52. -/
structure ShowRow where
  id : String
  name : String
  url : String
  image_url : Option String
deriving DecidableEq

/-- The python set of keys of a scraped dict, `set(scraped_shows_dict.keys())`
(src/scraper.py line 257). -/
def show_ids : ShowsDict → Finset String
  | [] => ∅
  | p :: d => insert p.1 (show_ids d)

/-- Set difference of ids, `new_show_ids = scraped_show_ids - existing_show_ids`
(src/scraper.py line 259). -/
def new_show_ids (scraped_ids existing_ids : Finset String) : Finset String :=
  scraped_ids \ existing_ids

/-- The new-shows dict built at src/scraper.py line 261,
`new_shows =` the sub-dict of `scraped_shows_dict` whose keys lie in `new_show_ids`. -/
def compute_new (scraped : ShowsDict) (existing_ids : Finset String) : ShowsDict :=
  scraped.filter (fun p => decide (p.1 ∈ new_show_ids (show_ids scraped) existing_ids))

theorem mem_show_ids (a : String) (d : ShowsDict) :
    a ∈ show_ids d ↔ ∃ b, (a, b) ∈ d := by
  induction d with
  | nil => simp [show_ids]
  | cons p d ih =>
      simp only [show_ids, Finset.mem_insert, ih, List.mem_cons]
      constructor
      · rintro (h | ⟨b, hb⟩)
        · exact ⟨p.2, Or.inl (by rw [h])⟩
        · exact ⟨b, Or.inr hb⟩
      · rintro ⟨b, h | hb⟩
        · left
          rw [← h]
        · exact Or.inr ⟨b, hb⟩

theorem compute_new_eq_filter (scraped : ShowsDict) (existing_ids : Finset String) :
    compute_new scraped existing_ids
      = scraped.filter (fun p => decide (p.1 ∉ existing_ids)) := by
  apply List.filter_congr
  intro p hp
  have hid : p.1 ∈ show_ids scraped := (mem_show_ids p.1 scraped).mpr ⟨p.2, hp⟩
  simp [new_show_ids, Finset.mem_sdiff, hid]

/-- C1: the diff step returns exactly the scraped items whose id is not among the
existing snapshot ids, the id difference contains an id exactly when it is scraped
and not existing, an empty scraped dict yields an empty result, an empty existing
id set yields all of the scraped dict, and the result is insensitive to the
insertion order of the scraped dict (a permutation of the input permutes the output). -/
theorem C1_diff_engine (scraped scraped2 : ShowsDict) (existing_ids : Finset String)
    (hperm : scraped.Perm scraped2) :
    compute_new scraped existing_ids
        = scraped.filter (fun p => decide (p.1 ∉ existing_ids))
    ∧ (∀ a, a ∈ new_show_ids (show_ids scraped) existing_ids
          ↔ a ∈ show_ids scraped ∧ a ∉ existing_ids)
    ∧ compute_new [] existing_ids = []
    ∧ compute_new scraped ∅ = scraped
    ∧ (compute_new scraped existing_ids).Perm (compute_new scraped2 existing_ids) := by
  refine ⟨compute_new_eq_filter scraped existing_ids, ?_, rfl, ?_, ?_⟩
  · intro a
    simp [new_show_ids, Finset.mem_sdiff]
  · rw [compute_new_eq_filter]
    apply List.filter_eq_self.mpr
    intro p _
    simp
  · rw [compute_new_eq_filter, compute_new_eq_filter]
    exact hperm.filter _

/-- Sample show payloads for concrete evaluations. -/
def infoA : ShowInfo := ⟨"Show A", "https://lv/a", none⟩

def infoB : ShowInfo := ⟨"Show B", "https://lv/b", some "https://lv/b.jpg"⟩

theorem C1_diff_engine_witness :
    compute_new [("1", infoA), ("2", infoB)] ∅ = [("1", infoA), ("2", infoB)] :=
  (C1_diff_engine [("1", infoA), ("2", infoB)] [("1", infoA), ("2", infoB)] ∅
    (List.Perm.refl _)).2.2.2.1

/-- The snapshot row written for one dict entry
(src/scraper.py lines 109-110, the INSERT into `shows`). -/
def row_of (p : String × ShowInfo) : ShowRow :=
  ⟨p.1, p.2.name, p.2.url, p.2.image_url⟩

/-- The function `delete_all_shows` (src/scraper.py lines 96-102):
`DELETE FROM shows`, committed on its own connection. -/
def delete_all_shows (_table : List ShowRow) : List ShowRow := []

/-- One iteration of the insert loop of `insert_all_shows`
(src/scraper.py lines 107-112): the INSERT succeeds unless the primary key
on `id` is violated, in which case the error is logged and the row skipped. -/
def insert_one_show (table : List ShowRow) (p : String × ShowInfo) : List ShowRow :=
  if table.any (fun r => decide (r.id = p.1)) then table else table ++ [row_of p]

/-- The function `insert_all_shows` (src/scraper.py lines 104-115):
inserts every dict entry into the `shows` table, committed on its own connection. -/
def insert_all_shows (shows : ShowsDict) (table : List ShowRow) : List ShowRow :=
  shows.foldl insert_one_show table

/-- The states of the `shows` table visible to a concurrent reader while
src/scraper.py lines 266-267 run: the prior table, then the state committed by
`delete_all_shows` (its own connection and transaction), then the state committed
by `insert_all_shows` (again its own connection and transaction). -/
def replace_snapshot_states (prior : List ShowRow) (shows : ShowsDict) :
    List (List ShowRow) :=
  [prior, delete_all_shows prior, insert_all_shows shows (delete_all_shows prior)]

/-- C2 counterexample: with prior snapshot `{1}` and observed set `{2}`, the
delete commit exposes an empty `shows` table to a concurrent reader, which is
neither the fully-prior nor the fully-new snapshot, so the replacement is not
one atomic transaction. -/
theorem C2_snapshot_atomic_counterexample :
    ¬ (∀ s ∈ replace_snapshot_states [row_of ("1", infoA)] [("2", infoB)],
        s = [row_of ("1", infoA)]
        ∨ s = insert_all_shows [("2", infoB)]
              (delete_all_shows [row_of ("1", infoA)])) := by
  intro h
  have := h (delete_all_shows [row_of ("1", infoA)]) (by simp [replace_snapshot_states])
  revert this
  decide

theorem insert_all_shows_fresh (shows : ShowsDict) :
    ∀ table : List ShowRow, (shows.map Prod.fst).Nodup →
      (∀ p ∈ shows, ∀ r ∈ table, r.id ≠ p.1) →
      insert_all_shows shows table = table ++ shows.map row_of := by
  induction shows with
  | nil => intro table _ _; simp [insert_all_shows]
  | cons p shows ih =>
      intro table hnd hdisj
      have hany : table.any (fun r => decide (r.id = p.1)) = false := by
        simp only [List.any_eq_false, decide_eq_true_eq]
        intro r hr
        exact hdisj p (List.mem_cons_self p shows) r hr
      have step : insert_all_shows (p :: shows) table
          = insert_all_shows shows (table ++ [row_of p]) := by
        simp [insert_all_shows, insert_one_show, hany]
      rw [step, ih (table ++ [row_of p]) (by simpa using hnd.of_cons) ?_]
      · simp
      · intro q hq r hr
        rcases List.mem_append.mp hr with h1 | h2
        · exact hdisj q (List.mem_cons_of_mem p hq) r h1
        · have hr2 : r = row_of p := by simpa using h2
          subst hr2
          have h3 : (p.1 :: shows.map Prod.fst).Nodup := by simpa using hnd
          have : p.1 ∉ shows.map Prod.fst := (List.nodup_cons.mp h3).1
          intro hc
          exact this (by simpa [← hc] using List.mem_map_of_mem Prod.fst hq)

/-- C2 amended: the delete and the insert are committed in two separate
transactions on two separate connections, so a concurrent reader observes the
prior snapshot, or the empty table exposed between the two commits, or the new
snapshot; the final state contains exactly the observed rows with no residual
prior rows. -/
theorem C2_snapshot_replace_amended (prior : List ShowRow) (shows : ShowsDict)
    (hkeys : (shows.map Prod.fst).Nodup) :
    (replace_snapshot_states prior shows).getLast? = some (shows.map row_of)
    ∧ ∀ s ∈ replace_snapshot_states prior shows,
        s = prior ∨ s = [] ∨ s = shows.map row_of := by
  have hfinal : insert_all_shows shows ([] : List ShowRow) = shows.map row_of := by
    rw [insert_all_shows_fresh shows [] hkeys (by simp)]
    simp
  constructor
  · simp [replace_snapshot_states, delete_all_shows, hfinal]
  · intro s hs
    simp only [replace_snapshot_states, delete_all_shows, hfinal,
      List.mem_cons, List.not_mem_nil, or_false] at hs
    exact hs

theorem C2_snapshot_replace_amended_witness :
    (replace_snapshot_states [row_of ("1", infoA)] [("2", infoB)]).getLast?
      = some ([("2", infoB)].map row_of) :=
  (C2_snapshot_replace_amended [row_of ("1", infoA)] [("2", infoB)] (by decide)).1

/-- A row of the `all_shows` table (all-time catalog), schema at
src/scraper.py lines 60-68: `first_seen_date` defaults to the insertion time. -/
structure CatalogRow where
  id : String
  name : String
  url : String
  image_url : Option String
  first_seen : Nat
deriving DecidableEq

/-- The catalog row written when an id is first inserted, with `first_seen_date`
defaulted to the current timestamp. -/
def catalog_row_of (p : String × ShowInfo) (now : Nat) : CatalogRow :=
  ⟨p.1, p.2.name, p.2.url, p.2.image_url, now⟩

/-- Whether the `all_shows` table already holds a row for the given id. -/
def catalog_has_id (catalog : List CatalogRow) (sid : String) : Bool :=
  catalog.any (fun r => decide (r.id = sid))

/-- One iteration of the loop of `add_to_all_shows` (src/scraper.py lines 120-129):
`INSERT INTO all_shows ... ON CONFLICT (id) DO NOTHING`. -/
def add_one_to_all_shows (now : Nat) (catalog : List CatalogRow)
    (p : String × ShowInfo) : List CatalogRow :=
  if catalog_has_id catalog p.1 then catalog else catalog ++ [catalog_row_of p now]

/-- The function `add_to_all_shows` (src/scraper.py lines 117-132): every scraped
entry is inserted into `all_shows`, with conflicts on the id primary key ignored. -/
def add_to_all_shows (shows : ShowsDict) (catalog : List CatalogRow) (now : Nat) :
    List CatalogRow :=
  shows.foldl (add_one_to_all_shows now) catalog

theorem add_to_all_shows_grows (shows : ShowsDict) :
    ∀ (catalog : List CatalogRow) (now : Nat),
      catalog <+: add_to_all_shows shows catalog now := by
  induction shows with
  | nil => intro catalog now; exact List.prefix_rfl
  | cons p shows ih =>
      intro catalog now
      have step : add_to_all_shows (p :: shows) catalog now
          = add_to_all_shows shows (add_one_to_all_shows now catalog p) now := rfl
      rw [step]
      refine List.IsPrefix.trans ?_ (ih (add_one_to_all_shows now catalog p) now)
      unfold add_one_to_all_shows
      split
      · exact List.prefix_rfl
      · exact List.prefix_append _ _

theorem add_to_all_shows_filter_of_present (shows : ShowsDict) (sid : String) :
    ∀ (catalog : List CatalogRow) (now : Nat),
      catalog_has_id catalog sid = true →
      (add_to_all_shows shows catalog now).filter (fun r => decide (r.id = sid))
        = catalog.filter (fun r => decide (r.id = sid)) := by
  induction shows with
  | nil => intro catalog now _; rfl
  | cons p shows ih =>
      intro catalog now hp
      have step : add_to_all_shows (p :: shows) catalog now
          = add_to_all_shows shows (add_one_to_all_shows now catalog p) now := rfl
      rw [step]
      unfold add_one_to_all_shows
      by_cases hc : catalog_has_id catalog p.1 = true
      · rw [if_pos hc]
        exact ih catalog now hp
      · rw [if_neg hc]
        have hne : p.1 ≠ sid := by
          intro he
          exact hc (he ▸ hp)
        have hp2 : catalog_has_id (catalog ++ [catalog_row_of p now]) sid = true := by
          simp only [catalog_has_id, List.any_append, Bool.or_eq_true]
          exact Or.inl hp
        rw [ih (catalog ++ [catalog_row_of p now]) now hp2]
        simp [catalog_row_of, hne]

theorem filter_id_length_one (sid : String) :
    ∀ l : List CatalogRow, (l.map CatalogRow.id).Nodup →
      (∃ r ∈ l, r.id = sid) →
      (l.filter (fun r => decide (r.id = sid))).length = 1 := by
  intro l
  induction l with
  | nil => intro _ h; simp at h
  | cons r l ih =>
      intro hnd hex
      have hnd2 : (r.id :: l.map CatalogRow.id).Nodup := by simpa using hnd
      by_cases hr : r.id = sid
      · have hnone : ∀ q ∈ l, ¬ q.id = sid := by
          intro q hq he
          exact (List.nodup_cons.mp hnd2).1
            (by simpa [he, ← hr] using List.mem_map_of_mem CatalogRow.id hq)
        have : l.filter (fun q => decide (q.id = sid)) = [] := by
          simp only [List.filter_eq_nil_iff, decide_eq_true_eq]
          exact hnone
        simp [hr, this]
      · rcases hex with ⟨q, hq, hqs⟩
        rcases List.mem_cons.mp hq with h1 | h2
        · exact absurd (h1 ▸ hqs) hr
        · have := ih (List.nodup_cons.mp hnd2).2 ⟨q, h2, hqs⟩
          simpa [hr] using this

/-- C4: appending an item whose id is already in the all-time catalog is a no-op:
the catalog rows with that id (their name, url, image url and first-seen
timestamp included) are exactly the rows before the append, a single re-append
leaves the catalog unchanged, under the primary-key invariant exactly one row for
that id remains, and every append only extends the catalog, leaving every
existing row and its first-seen timestamp untouched. -/
theorem C4_catalog_append_idempotent (shows : ShowsDict) (catalog : List CatalogRow)
    (now now2 : Nat) (sid : String) (info : ShowInfo)
    (hpresent : ∃ r ∈ catalog, r.id = sid)
    (hnodup : (catalog.map CatalogRow.id).Nodup) :
    catalog <+: add_to_all_shows shows catalog now
    ∧ (add_to_all_shows shows catalog now).filter (fun r => decide (r.id = sid))
        = catalog.filter (fun r => decide (r.id = sid))
    ∧ ((add_to_all_shows shows catalog now).filter
        (fun r => decide (r.id = sid))).length = 1
    ∧ add_to_all_shows [(sid, info)] catalog now2 = catalog := by
  have hhas : catalog_has_id catalog sid = true := by
    rcases hpresent with ⟨r, hr, hid⟩
    simp only [catalog_has_id, List.any_eq_true, decide_eq_true_eq]
    exact ⟨r, hr, hid⟩
  refine ⟨add_to_all_shows_grows shows catalog now, ?_, ?_, ?_⟩
  · exact add_to_all_shows_filter_of_present shows sid catalog now hhas
  · rw [add_to_all_shows_filter_of_present shows sid catalog now hhas]
    exact filter_id_length_one sid catalog hnodup hpresent
  · show add_one_to_all_shows now2 catalog (sid, info) = catalog
    unfold add_one_to_all_shows
    rw [if_pos hhas]

theorem C4_catalog_append_idempotent_witness :
    add_to_all_shows [("1", infoB)] [catalog_row_of ("1", infoA) 5] 9
      = [catalog_row_of ("1", infoA) 5] :=
  (C4_catalog_append_idempotent [("2", infoB)] [catalog_row_of ("1", infoA) 5]
    7 9 "1" infoB ⟨catalog_row_of ("1", infoA) 5, by simp, rfl⟩ (by decide)).2.2.2

/-- A message emitted by the fanout: either one broadcast embed to the shared
channel (src/scraper.py lines 351-362) or one direct message with a blacklist
button to a single user (src/scraper.py lines 407-433). -/
inductive Msg where
  | broadcast (show_id : String) (info : ShowInfo)
  | dm (user_id : Nat) (show_id : String) (info : ShowInfo)
deriving DecidableEq

/-- Whether a fanout message is a channel broadcast. -/
def Msg.is_channel : Msg → Bool
  | .broadcast _ _ => true
  | .dm _ _ _ => false

/-- Whether a fanout message is a direct message to a user. -/
def Msg.is_direct : Msg → Bool
  | .broadcast _ _ => false
  | .dm _ _ _ => true

/-- The blacklist rows fetched at src/scraper.py lines 379-384:
`SELECT user_id, show_id FROM user_blacklists WHERE show_id = ANY(new_show_ids)`. -/
def fetch_user_blacklists (table : List (Nat × String)) (new_ids : List String) :
    List (Nat × String) :=
  table.filter (fun r => decide (r.2 ∈ new_ids))

/-- The per-user blacklisted id set `user_blacklists.get(user.id, set())`
built at src/scraper.py lines 387-393 and read at line 403. -/
def blacklisted_for (rows : List (Nat × String)) (uid : Nat) : List String :=
  (rows.filter (fun r => decide (r.1 = uid))).map Prod.snd

/-- The direct messages sent to one user (src/scraper.py lines 403-433):
`shows_to_notify` keeps the new shows not blacklisted by the user, and the user
is skipped entirely when it is empty. -/
def dms_for_user (new_shows : ShowsDict) (bl : List String) (uid : Nat) : List Msg :=
  if new_shows.filter (fun p => decide (p.1 ∉ bl)) = [] then []
  else (new_shows.filter (fun p => decide (p.1 ∉ bl))).map (fun p => Msg.dm uid p.1 p.2)

theorem dms_for_user_eq (new_shows : ShowsDict) (bl : List String) (uid : Nat) :
    dms_for_user new_shows bl uid
      = (new_shows.filter (fun p => decide (p.1 ∉ bl))).map
          (fun p => Msg.dm uid p.1 p.2) := by
  unfold dms_for_user
  split
  · rename_i h
    rw [h]
    rfl
  · rfl

/-- The function `notify_users_about_new_shows` (src/scraper.py lines 344-433) as
the list of messages it sends, in order: nothing when `new_shows` is empty,
otherwise one channel broadcast per new show followed by the per-user direct
messages. `fetched` is the result of the blacklist query: `none` models the
exception path at lines 394-396, which degrades to an empty blacklist dict. -/
def notify_users_about_new_shows (new_shows : ShowsDict) (users : List Nat)
    (fetched : Option (List (Nat × String))) : List Msg :=
  if new_shows = [] then []
  else
    let user_blacklists := match fetched with
      | some table => fetch_user_blacklists table (new_shows.map Prod.fst)
      | none => []
    new_shows.map (fun p => Msg.broadcast p.1 p.2)
      ++ users.flatMap (fun uid =>
          dms_for_user new_shows (blacklisted_for user_blacklists uid) uid)

theorem mem_blacklisted_for (rows : List (Nat × String)) (uid : Nat) (sid : String) :
    sid ∈ blacklisted_for rows uid ↔ (uid, sid) ∈ rows := by
  simp only [blacklisted_for, List.mem_map, List.mem_filter, decide_eq_true_eq]
  constructor
  · rintro ⟨r, ⟨hr, h1⟩, h2⟩
    have : r = (uid, sid) := Prod.ext h1 h2
    exact this ▸ hr
  · intro h
    exact ⟨(uid, sid), ⟨h, rfl⟩, rfl⟩

theorem mem_bl_fetched (table : List (Nat × String)) (new_shows : ShowsDict)
    (uid : Nat) (sid : String) (hsid : sid ∈ new_shows.map Prod.fst) :
    sid ∈ blacklisted_for (fetch_user_blacklists table (new_shows.map Prod.fst)) uid
      ↔ (uid, sid) ∈ table := by
  rw [mem_blacklisted_for]
  simp only [fetch_user_blacklists, List.mem_filter, decide_eq_true_eq]
  exact ⟨fun h => h.1, fun h => ⟨h, hsid⟩⟩

theorem dm_mem_notify (new_shows : ShowsDict) (users : List Nat)
    (fetched : Option (List (Nat × String))) (uid : Nat) (sid : String)
    (info : ShowInfo) :
    Msg.dm uid sid info ∈ notify_users_about_new_shows new_shows users fetched
      ↔ uid ∈ users ∧ ∃ p ∈ new_shows, p.1 = sid ∧ p.2 = info
          ∧ p.1 ∉ blacklisted_for (match fetched with
              | some table => fetch_user_blacklists table (new_shows.map Prod.fst)
              | none => []) uid := by
  unfold notify_users_about_new_shows
  by_cases hne : new_shows = []
  · subst hne
    simp
  · rw [if_neg hne]
    simp only [List.mem_append, List.mem_map, List.mem_flatMap]
    constructor
    · rintro (⟨p, _, hp⟩ | ⟨u, hu, hdm⟩)
      · exact absurd hp (by simp)
      · rw [dms_for_user_eq] at hdm
        simp only [List.mem_map, List.mem_filter, decide_eq_true_eq] at hdm
        rcases hdm with ⟨p, ⟨hpmem, hpbl⟩, heq⟩
        have h1 : u = uid := (Msg.dm.injEq _ _ _ _ _ _).mp heq |>.1
        have h2 : p.1 = sid := (Msg.dm.injEq _ _ _ _ _ _).mp heq |>.2.1
        have h3 : p.2 = info := (Msg.dm.injEq _ _ _ _ _ _).mp heq |>.2.2
        exact ⟨h1 ▸ hu, p, hpmem, h2, h3, by simpa [h1] using hpbl⟩
    · rintro ⟨hu, p, hpmem, h1, h2, hbl⟩
      refine Or.inr ⟨uid, hu, ?_⟩
      rw [dms_for_user_eq]
      have hpf : p ∈ new_shows.filter
          (fun q => decide (q.1 ∉ blacklisted_for (match fetched with
            | some table => fetch_user_blacklists table (new_shows.map Prod.fst)
            | none => []) uid)) := by
        simp only [List.mem_filter, decide_eq_true_eq]
        exact ⟨hpmem, hbl⟩
      exact List.mem_map.mpr ⟨p, hpf, by rw [h1, h2]⟩

/-- C3: with a non-empty new-item set, every new show is broadcast to the shared
channel regardless of any blacklist, a user receives a direct message for a new
show exactly when that show is not on the blacklist table for that user, and a
user whose entire deliverable set is blacklisted receives no direct message at
all. -/
theorem C3_fanout_filtering (new_shows : ShowsDict) (users : List Nat)
    (table : List (Nat × String)) (hne : new_shows ≠ []) :
    (∀ p ∈ new_shows, Msg.broadcast p.1 p.2
        ∈ notify_users_about_new_shows new_shows users (some table))
    ∧ (∀ uid ∈ users, ∀ p ∈ new_shows,
        (Msg.dm uid p.1 p.2 ∈ notify_users_about_new_shows new_shows users (some table)
          ↔ (uid, p.1) ∉ table))
    ∧ (∀ uid, new_shows.filter (fun p => decide ((uid, p.1) ∉ table)) = [] →
        ∀ sid info, Msg.dm uid sid info
          ∉ notify_users_about_new_shows new_shows users (some table)) := by
  refine ⟨?_, ?_, ?_⟩
  · intro p hp
    unfold notify_users_about_new_shows
    rw [if_neg hne]
    exact List.mem_append_left _ (List.mem_map_of_mem _ hp)
  · intro uid hu p hp
    rw [dm_mem_notify]
    constructor
    · rintro ⟨_, q, hq, h1, _, hbl⟩
      intro hc
      exact hbl ((mem_bl_fetched table new_shows uid q.1
        (h1 ▸ List.mem_map_of_mem Prod.fst hp)).mpr (h1 ▸ hc))
    · intro hnotbl
      refine ⟨hu, p, hp, rfl, rfl, ?_⟩
      rw [mem_bl_fetched table new_shows uid p.1 (List.mem_map_of_mem Prod.fst hp)]
      exact hnotbl
  · intro uid hempty sid info hmem
    rcases (dm_mem_notify new_shows users (some table) uid sid info).mp hmem with
      ⟨_, p, hpmem, _, _, hbl⟩
    have hnot : (uid, p.1) ∉ table := by
      intro hc
      exact hbl ((mem_bl_fetched table new_shows uid p.1
        (List.mem_map_of_mem Prod.fst hpmem)).mpr hc)
    have : p ∈ new_shows.filter (fun q => decide ((uid, q.1) ∉ table)) := by
      simp only [List.mem_filter, decide_eq_true_eq]
      exact ⟨hpmem, hnot⟩
    rw [hempty] at this
    exact absurd this (by simp)

theorem C3_fanout_filtering_witness :
    Msg.broadcast "1" infoA
      ∈ notify_users_about_new_shows [("1", infoA)] [7] (some [(7, "9")]) :=
  (C3_fanout_filtering [("1", infoA)] [7] [(7, "9")] (by simp)).1
    ("1", infoA) (by simp)

/-- C7: within one run with a non-empty new-item set, the message sequence of the
fanout is a block of channel broadcasts followed by a block of direct messages,
so every broadcast is emitted before any direct message to any user. -/
theorem C7_broadcasts_before_dms (new_shows : ShowsDict) (users : List Nat)
    (fetched : Option (List (Nat × String))) :
    ∃ bs ds, notify_users_about_new_shows new_shows users fetched = bs ++ ds
      ∧ (∀ m ∈ bs, m.is_channel = true)
      ∧ (∀ m ∈ ds, m.is_direct = true) := by
  unfold notify_users_about_new_shows
  by_cases hne : new_shows = []
  · exact ⟨[], [], by simp [hne]⟩
  · rw [if_neg hne]
    refine ⟨_, _, rfl, ?_, ?_⟩
    · intro m hm
      rcases List.mem_map.mp hm with ⟨p, _, hp⟩
      rw [← hp]
      rfl
    · intro m hm
      rcases List.mem_flatMap.mp hm with ⟨uid, _, hdm⟩
      rw [dms_for_user_eq] at hdm
      rcases List.mem_map.mp hdm with ⟨p, _, hp⟩
      rw [← hp]
      rfl

/-- C8: when the blacklist fetch fails, filtering fails open: the run proceeds as
though no user blacklisted anything, so every resolved user is sent a direct
message for every new show. -/
theorem C8_fail_open (new_shows : ShowsDict) (users : List Nat)
    (hne : new_shows ≠ []) :
    ∀ uid ∈ users, ∀ p ∈ new_shows,
      Msg.dm uid p.1 p.2 ∈ notify_users_about_new_shows new_shows users none := by
  intro uid hu p hp
  rw [dm_mem_notify]
  exact ⟨hu, p, hp, rfl, rfl, by simp [blacklisted_for]⟩

theorem C8_fail_open_witness :
    Msg.dm 7 "1" infoA ∈ notify_users_about_new_shows [("1", infoA)] [7] none :=
  C8_fail_open [("1", infoA)] [7] (by simp) 7 (by simp) ("1", infoA) (by simp)

/-- The state of one rendered blacklist button (src/scraper.py lines 298-307):
the show it targets, the show name shown in the confirmation, the user the
direct message was sent to, and whether the button has been disabled. -/
structure BlacklistButton where
  show_id : String
  show_name : String
  user_id : Nat
  disabled : Bool
deriving DecidableEq

/-- The ephemeral reply sent by the button callback. -/
inductive ButtonReply where
  | not_for_you
  | added_to_blacklist (show_name : String)
deriving DecidableEq

/-- The blacklist insert of the button callback (src/scraper.py lines 320-324):
`INSERT INTO user_blacklists (user_id, show_id) VALUES ... ON CONFLICT DO NOTHING`,
against the composite primary key on `(user_id, show_id)`. -/
def insert_blacklist_entry (bl : List (Nat × String)) (uid : Nat) (sid : String) :
    List (Nat × String) :=
  if (uid, sid) ∈ bl then bl else bl ++ [(uid, sid)]

/-- The method `BlacklistButton.callback` (src/scraper.py lines 309-340): reject
foreign users with an ephemeral notice and no state change; otherwise insert the
blacklist entry, confirm, and disable the button in place. -/
def button_callback (b : BlacklistButton) (bl : List (Nat × String)) (actor : Nat) :
    BlacklistButton × List (Nat × String) × ButtonReply :=
  if actor ≠ b.user_id then (b, bl, ButtonReply.not_for_you)
  else (⟨b.show_id, b.show_name, b.user_id, true⟩,
        insert_blacklist_entry bl actor b.show_id,
        ButtonReply.added_to_blacklist b.show_name)

theorem filter_eq_self_length_one {α : Type} [DecidableEq α] (a : α) :
    ∀ l : List α, l.Nodup → a ∈ l →
      (l.filter (fun e => decide (e = a))).length = 1 := by
  intro l
  induction l with
  | nil => intro _ h; simp at h
  | cons x l ih =>
      intro hnd hmem
      by_cases hx : x = a
      · have hnil : l.filter (fun e => decide (e = a)) = [] := by
          simp only [List.filter_eq_nil_iff, decide_eq_true_eq]
          intro e he hea
          exact (List.nodup_cons.mp hnd).1 (by rw [hx, ← hea]; exact he)
        simp [hx, hnil]
      · have : a ∈ l := by
          rcases List.mem_cons.mp hmem with h | h
          · exact absurd h.symm hx
          · exact h
        simpa [hx] using ih (List.nodup_cons.mp hnd).2 this

/-- C9: a foreign activator is rejected with a private notice and no state change
(no blacklist row written, button not disabled); the intended user gets the
blacklist entry written idempotently (a conflict with an existing entry is
ignored, leaving exactly one entry under the primary-key invariant), a
confirmation reply, a disabled button, and a repeated activation changes the
store no further. -/
theorem C9_button_callback (b : BlacklistButton) (bl : List (Nat × String))
    (actor : Nat) :
    (actor ≠ b.user_id → button_callback b bl actor = (b, bl, ButtonReply.not_for_you))
    ∧ (actor = b.user_id →
        button_callback b bl actor
          = (⟨b.show_id, b.show_name, b.user_id, true⟩,
             insert_blacklist_entry bl actor b.show_id,
             ButtonReply.added_to_blacklist b.show_name)
        ∧ (actor, b.show_id) ∈ insert_blacklist_entry bl actor b.show_id
        ∧ (bl.Nodup → (insert_blacklist_entry bl actor b.show_id).Nodup
            ∧ ((insert_blacklist_entry bl actor b.show_id).filter
                (fun e => decide (e = (actor, b.show_id)))).length = 1)
        ∧ (∀ e, e ≠ (actor, b.show_id) →
            (e ∈ insert_blacklist_entry bl actor b.show_id ↔ e ∈ bl))
        ∧ insert_blacklist_entry (insert_blacklist_entry bl actor b.show_id)
            actor b.show_id
          = insert_blacklist_entry bl actor b.show_id) := by
  constructor
  · intro hne
    unfold button_callback
    rw [if_pos hne]
  · intro heq
    have hmem : (actor, b.show_id) ∈ insert_blacklist_entry bl actor b.show_id := by
      unfold insert_blacklist_entry
      split
      · assumption
      · simp
    refine ⟨?_, hmem, ?_, ?_, ?_⟩
    · unfold button_callback
      rw [if_neg (by simp [heq])]
    · intro hnd
      have hnodup : (insert_blacklist_entry bl actor b.show_id).Nodup := by
        unfold insert_blacklist_entry
        split
        · exact hnd
        · rw [List.nodup_append]
          exact ⟨hnd, List.nodup_singleton _, by
            rename_i hin
            simpa using hin⟩
      exact ⟨hnodup, filter_eq_self_length_one (actor, b.show_id) _ hnodup hmem⟩
    · intro e hne
      unfold insert_blacklist_entry
      split
      · exact Iff.rfl
      · simp [hne]
    · conv_lhs => rw [insert_blacklist_entry]
      rw [if_pos hmem]

theorem C9_button_callback_witness :
    button_callback ⟨"7", "Show A", 5, false⟩ [] 6
      = (⟨"7", "Show A", 5, false⟩, [], ButtonReply.not_for_you)
    ∧ (5, "7") ∈ insert_blacklist_entry [] 5 "7" :=
  ⟨(C9_button_callback ⟨"7", "Show A", 5, false⟩ [] 6).1 (by decide),
   ((C9_button_callback ⟨"7", "Show A", 5, false⟩ [] 5).2 rfl).2.1⟩

/-- The reply sent by the `blacklist_remove` slash command. -/
inductive RemoveReply where
  | removed (show_name : String)
  | not_found
deriving DecidableEq

/-- The command `blacklist_remove` (src/scraper.py lines 478-499): look the id up
in the current `shows` snapshot; when found, unconditionally
`DELETE FROM user_blacklists WHERE user_id = caller AND show_id = show_id` and
confirm with the show name; otherwise reply that the id was not found. -/
def blacklist_remove (snapshot : List ShowRow) (bl : List (Nat × String))
    (caller : Nat) (show_id : String) : List (Nat × String) × RemoveReply :=
  match snapshot.find? (fun r => decide (r.id = show_id)) with
  | some r => (bl.filter (fun e => decide (¬(e.1 = caller ∧ e.2 = show_id))),
               RemoveReply.removed r.name)
  | none => (bl, RemoveReply.not_found)

theorem snapshot_row_unique (snapshot : List ShowRow)
    (hnd : (snapshot.map ShowRow.id).Nodup) :
    ∀ a ∈ snapshot, ∀ b ∈ snapshot, a.id = b.id → a = b := by
  induction snapshot with
  | nil => intro a ha; simp at ha
  | cons r l ih =>
      have hnd2 : (r.id :: l.map ShowRow.id).Nodup := by simpa using hnd
      have hnotin := (List.nodup_cons.mp hnd2).1
      intro a ha b hb heq
      rcases List.mem_cons.mp ha with ha1 | ha2 <;>
        rcases List.mem_cons.mp hb with hb1 | hb2
      · rw [ha1, hb1]
      · exfalso
        apply hnotin
        have hrb : r.id = b.id := by rw [← ha1]; exact heq
        rw [hrb]
        exact List.mem_map_of_mem ShowRow.id hb2
      · exfalso
        apply hnotin
        have hra : r.id = a.id := by rw [← hb1]; exact heq.symm
        rw [hra]
        exact List.mem_map_of_mem ShowRow.id ha2
      · exact ih (List.nodup_cons.mp hnd2).2 a ha2 b hb2 heq

/-- C10: when the given show id has a row in the current snapshot, the command
replies with the removal confirmation carrying that row name, afterwards no
blacklist row for the caller and that show exists (whether or not one existed
before, since the delete is unconditional and never checked), and every
blacklist row of any other user or for any other show is untouched. -/
theorem C10_blacklist_remove (snapshot : List ShowRow) (bl : List (Nat × String))
    (caller : Nat) (show_id : String) (r : ShowRow)
    (hr : r ∈ snapshot) (hid : r.id = show_id)
    (hnd : (snapshot.map ShowRow.id).Nodup) :
    (blacklist_remove snapshot bl caller show_id).2 = RemoveReply.removed r.name
    ∧ (caller, show_id) ∉ (blacklist_remove snapshot bl caller show_id).1
    ∧ ∀ u s, ¬(u = caller ∧ s = show_id) →
        ((u, s) ∈ (blacklist_remove snapshot bl caller show_id).1 ↔ (u, s) ∈ bl) := by
  have hfind : snapshot.find? (fun q => decide (q.id = show_id)) = some r := by
    cases hf : snapshot.find? (fun q => decide (q.id = show_id)) with
    | none =>
        rw [List.find?_eq_none] at hf
        exact absurd (by simpa using hid) (hf r hr)
    | some q =>
        have hq1 : q.id = show_id := by simpa using List.find?_some hf
        have hq2 : q ∈ snapshot := List.mem_of_find?_eq_some hf
        rw [snapshot_row_unique snapshot hnd q hq2 r hr (by rw [hq1, hid])]
  unfold blacklist_remove
  rw [hfind]
  refine ⟨rfl, ?_, ?_⟩
  · simp
  · intro u s hne
    simp only [List.mem_filter, decide_eq_true_eq]
    constructor
    · exact fun h => h.1
    · intro h
      exact ⟨h, by simpa using hne⟩

theorem C10_blacklist_remove_witness :
    (blacklist_remove [row_of ("1", infoA)] [(7, "1"), (8, "1")] 7 "1").2
      = RemoveReply.removed "Show A"
    ∧ (7, "1") ∉ (blacklist_remove [row_of ("1", infoA)] [(7, "1"), (8, "1")] 7 "1").1 :=
  ⟨(C10_blacklist_remove [row_of ("1", infoA)] [(7, "1"), (8, "1")] 7 "1"
      (row_of ("1", infoA)) (by simp) rfl (by decide)).1,
   (C10_blacklist_remove [row_of ("1", infoA)] [(7, "1"), (8, "1")] 7 "1"
      (row_of ("1", infoA)) (by simp) rfl (by decide)).2.1⟩

/-- The persisted database state touched by one run: the `shows` snapshot table
and the `all_shows` catalog table. -/
structure DBState where
  shows : List ShowRow
  all_shows : List CatalogRow
deriving DecidableEq

/-- The outcome of the observation part of `scrape_and_process`
(src/scraper.py lines 180-247): an exception anywhere in the try block
(collector unreachable, login failure, transport error), a page without the
event-info div, or a successfully scraped dict of shows. -/
inductive ObsOutcome where
  | obs_failure (msg : String)
  | no_event_info_div
  | scraped (shows : ShowsDict)
deriving DecidableEq

/-- An externally visible effect of one run: one channel notice text, or the
scheduling of the DM fanout for the given new shows. -/
inductive RunEffect where
  | channel_notice (text : String)
  | schedule_notify (new_shows : ShowsDict)
deriving DecidableEq

/-- Whether a run effect is a channel notice. -/
def RunEffect.is_notice : RunEffect → Bool
  | .channel_notice _ => true
  | .schedule_notify _ => false

/-- The id set of the existing snapshot, as read by `get_existing_shows`
(src/scraper.py lines 87-94 and 256). -/
def snapshot_ids : List ShowRow → Finset String
  | [] => ∅
  | r :: rows => insert r.id (snapshot_ids rows)

/-- The function `scrape_and_process` (src/scraper.py lines 165-295) after the
observation step: on the success path (lines 249-275) it appends to `all_shows`,
diffs against the existing snapshot, rewrites the `shows` table, and schedules
the fanout only when new shows exist; on the missing-div path (lines 277-283)
and the exception path (lines 285-291) it sends exactly one channel notice and
touches no table. -/
def scrape_and_process (db : DBState) (now : Nat) :
    ObsOutcome → DBState × List RunEffect
  | ObsOutcome.obs_failure msg =>
      (db, [RunEffect.channel_notice ("An error occurred: " ++ msg)])
  | ObsOutcome.no_event_info_div =>
      (db, [RunEffect.channel_notice
        "Warning: Could not find the event-info div. The page structure might have changed."])
  | ObsOutcome.scraped shows =>
      let all2 := add_to_all_shows shows db.all_shows now
      let new_shows := compute_new shows (snapshot_ids db.shows)
      let shows2 := insert_all_shows shows (delete_all_shows db.shows)
      (⟨shows2, all2⟩,
       if new_shows = [] then [] else [RunEffect.schedule_notify new_shows])

/-- C5: when observation fails (an exception in the try block or a missing
event-info div), the run aborts before the snapshot replacement: the snapshot
table and the all-time catalog are unchanged, the effect list is exactly one
channel notice, and no DM fanout is scheduled for any show set. -/
theorem C5_observation_failure (db : DBState) (now : Nat) (msg : String) :
    ((scrape_and_process db now (ObsOutcome.obs_failure msg)).1 = db
      ∧ ((scrape_and_process db now (ObsOutcome.obs_failure msg)).2.filter
          RunEffect.is_notice).length = 1
      ∧ (scrape_and_process db now (ObsOutcome.obs_failure msg)).2.length = 1
      ∧ ∀ ns, RunEffect.schedule_notify ns
          ∉ (scrape_and_process db now (ObsOutcome.obs_failure msg)).2)
    ∧ ((scrape_and_process db now ObsOutcome.no_event_info_div).1 = db
      ∧ ((scrape_and_process db now ObsOutcome.no_event_info_div).2.filter
          RunEffect.is_notice).length = 1
      ∧ (scrape_and_process db now ObsOutcome.no_event_info_div).2.length = 1
      ∧ ∀ ns, RunEffect.schedule_notify ns
          ∉ (scrape_and_process db now ObsOutcome.no_event_info_div).2) := by
  refine ⟨⟨rfl, rfl, rfl, ?_⟩, rfl, rfl, rfl, ?_⟩ <;>
    · intro ns
      simp [scrape_and_process, RunEffect.is_notice]

/-- One tick of the 2-minute task loop driving `scraping_task`
(src/scraper.py lines 435-444): its wall-clock time, the local hour used by the
operating-window check, the duration of the awaited blocking scrape, and the
duration of the fanout coroutine the scrape schedules without awaiting it. -/
structure SchedTick where
  time : Nat
  hour : Nat
  scrape_dur : Nat
  notify_dur : Nat
deriving DecidableEq

/-- Modelled from the spec: the fixed-period loop driver (`discord.ext`
`tasks.loop`) that fires `scraping_task` is library code not under `src/`; the
spec states that ticks are processed one at a time and that a tick firing while
a run is still in progress is dropped. `scraping_task` itself
(src/scraper.py lines 435-444) runs only when `8 <= hour < 17` and awaits the
blocking scrape through `asyncio.to_thread`, so the loop is busy until the
scrape finishes, while `scrape_and_process` (src/scraper.py lines 272-275)
hands the notification fanout to the event loop with
`asyncio.run_coroutine_threadsafe` without awaiting it, so the Notifying phase
of a run extends past the awaited interval. Each produced run is
`(start, scrape_end, notify_end)`. -/
def scheduler_runs : List SchedTick → Nat → List (Nat × Nat × Nat)
  | [], _ => []
  | t :: ts, busy =>
      if t.time < busy then scheduler_runs ts busy
      else if 8 ≤ t.hour ∧ t.hour < 17 then
        (t.time, t.time + t.scrape_dur, t.time + t.scrape_dur + t.notify_dur)
          :: scheduler_runs ts (t.time + t.scrape_dur)
      else scheduler_runs ts busy

/-- C6 counterexample: a first run whose fanout outlasts the period overlaps the
second run, because only the scrape is awaited: with a tick at time 0 (scrape
takes 1, fanout takes 10) and a tick at time 2, the first run spans times 0 to
11 while the second starts at time 2, so two runs are in their
Observing/Diffing/Notifying phases at once. -/
theorem C6_run_serialization_counterexample :
    ¬ List.Pairwise (fun a b => a.2.2 ≤ b.1)
        (scheduler_runs [⟨0, 9, 1, 10⟩, ⟨2, 9, 1, 0⟩] 0) := by
  decide

theorem scheduler_runs_start_ge :
    ∀ (ts : List SchedTick) (busy : Nat),
      ∀ r ∈ scheduler_runs ts busy, busy ≤ r.1 := by
  intro ts
  induction ts with
  | nil => intro busy r hr; simp [scheduler_runs] at hr
  | cons t ts ih =>
      intro busy r hr
      unfold scheduler_runs at hr
      split at hr
      · rename_i hbusy
        exact ih busy r hr
      · rename_i hbusy
        split at hr
        · rcases List.mem_cons.mp hr with h | h
          · rw [h]
            exact Nat.le_of_not_lt hbusy
          · exact Nat.le_trans (Nat.le_of_not_lt hbusy)
              (Nat.le_trans (Nat.le_add_right _ _) (ih _ r h))
        · exact ih busy r hr

theorem scheduler_runs_scrape_serialized :
    ∀ (ts : List SchedTick) (busy : Nat),
      List.Pairwise (fun a b => a.2.1 ≤ b.1) (scheduler_runs ts busy) := by
  intro ts
  induction ts with
  | nil => intro busy; simp [scheduler_runs]
  | cons t ts ih =>
      intro busy
      unfold scheduler_runs
      split
      · exact ih busy
      · split
        · exact List.Pairwise.cons
            (fun r hr => scheduler_runs_start_ge ts _ r hr) (ih _)
        · exact ih busy

theorem scheduler_runs_sound :
    ∀ (ts : List SchedTick) (busy : Nat),
      ∀ r ∈ scheduler_runs ts busy,
        ∃ t ∈ ts, r = (t.time, t.time + t.scrape_dur,
            t.time + t.scrape_dur + t.notify_dur)
          ∧ 8 ≤ t.hour ∧ t.hour < 17 := by
  intro ts
  induction ts with
  | nil => intro busy r hr; simp [scheduler_runs] at hr
  | cons t ts ih =>
      intro busy r hr
      unfold scheduler_runs at hr
      split at hr
      · rcases ih busy r hr with ⟨u, hu, h⟩
        exact ⟨u, List.mem_cons_of_mem t hu, h⟩
      · split at hr
        · rename_i hwin
          rcases List.mem_cons.mp hr with h | h
          · exact ⟨t, List.mem_cons_self t ts, h, hwin⟩
          · rcases ih _ r h with ⟨u, hu, h2⟩
            exact ⟨u, List.mem_cons_of_mem t hu, h2⟩
        · rcases ih busy r hr with ⟨u, hu, h⟩
          exact ⟨u, List.mem_cons_of_mem t hu, h⟩

theorem scheduler_runs_dropped :
    ∀ (ts : List SchedTick) (busy : Nat),
      List.Pairwise (fun a b => a.time < b.time) ts →
      ∀ t ∈ ts, 8 ≤ t.hour → t.hour < 17 →
        (∃ r ∈ scheduler_runs ts busy, r.1 = t.time)
        ∨ t.time < busy
        ∨ ∃ r ∈ scheduler_runs ts busy, r.1 < t.time ∧ t.time < r.2.1 := by
  intro ts
  induction ts with
  | nil => intro busy _ t ht; simp at ht
  | cons u ts ih =>
      intro busy hp t ht h8 h17
      have hp2 := (List.pairwise_cons.mp hp).2
      have hult := (List.pairwise_cons.mp hp).1
      unfold scheduler_runs
      rcases List.mem_cons.mp ht with h | h
      · subst h
        by_cases hbusy : t.time < busy
        · exact Or.inr (Or.inl hbusy)
        · rw [if_neg hbusy, if_pos ⟨h8, h17⟩]
          exact Or.inl ⟨(t.time, t.time + t.scrape_dur,
            t.time + t.scrape_dur + t.notify_dur), List.mem_cons_self _ _, rfl⟩
      · by_cases hbusy : u.time < busy
        · rw [if_pos hbusy]
          exact ih busy hp2 t h h8 h17
        · rw [if_neg hbusy]
          by_cases hwin : 8 ≤ u.hour ∧ u.hour < 17
          · rw [if_pos hwin]
            rcases ih (u.time + u.scrape_dur) hp2 t h h8 h17 with
              ⟨r, hr, hr1⟩ | hlt | ⟨r, hr, hr1, hr2⟩
            · exact Or.inl ⟨r, List.mem_cons_of_mem _ hr, hr1⟩
            · refine Or.inr (Or.inr ⟨(u.time, u.time + u.scrape_dur,
                u.time + u.scrape_dur + u.notify_dur), List.mem_cons_self _ _,
                hult t h, hlt⟩)
            · exact Or.inr (Or.inr ⟨r, List.mem_cons_of_mem _ hr, hr1, hr2⟩)
          · rw [if_neg hwin]
            exact ih busy hp2 t h h8 h17

/-- C6 amended: the blocking scrape phases are serialized: each produced run
finishes its awaited scrape interval before the next run starts, every run comes
from an in-window tick, a run never starts before the scheduler is free, and,
for ticks at strictly increasing times, every in-window tick either starts a run
or fires while the scheduler is busy (initially, or strictly inside the awaited
scrape interval of an earlier run) and is then dropped entirely; the Notifying
phase, however, is scheduled without being awaited and may overlap a later run,
as the counterexample shows. -/
theorem C6_run_serialization_amended (ts : List SchedTick) (busy : Nat)
    (hp : List.Pairwise (fun a b => a.time < b.time) ts) :
    List.Pairwise (fun a b => a.2.1 ≤ b.1) (scheduler_runs ts busy)
    ∧ (∀ r ∈ scheduler_runs ts busy, busy ≤ r.1
        ∧ ∃ t ∈ ts, r = (t.time, t.time + t.scrape_dur,
            t.time + t.scrape_dur + t.notify_dur) ∧ 8 ≤ t.hour ∧ t.hour < 17)
    ∧ (∀ t ∈ ts, 8 ≤ t.hour → t.hour < 17 →
        (∃ r ∈ scheduler_runs ts busy, r.1 = t.time)
        ∨ t.time < busy
        ∨ ∃ r ∈ scheduler_runs ts busy, r.1 < t.time ∧ t.time < r.2.1) :=
  ⟨scheduler_runs_scrape_serialized ts busy,
   fun r hr => ⟨scheduler_runs_start_ge ts busy r hr,
     scheduler_runs_sound ts busy r hr⟩,
   scheduler_runs_dropped ts busy hp⟩

theorem C6_run_serialization_amended_witness :
    List.Pairwise (fun (a b : Nat × Nat × Nat) => a.2.1 ≤ b.1)
      (scheduler_runs [⟨0, 9, 1, 10⟩, ⟨2, 9, 1, 0⟩] 0) :=
  (C6_run_serialization_amended [⟨0, 9, 1, 10⟩, ⟨2, 9, 1, 0⟩] 0 (by decide)).1

end HouseSeats
